import Mathlib

/-!
Verification of the m100util UHF-RFID reader driver (Rust sources
`src/protocol.rs` and `src/m100.rs`) against its natural-language
specification.  Byte values are modelled as `Nat` (each wire byte is
`< 256`); machine-integer wraparound is made explicit with `% 2^w`
where the Rust code performs it (`as u16` casts, `u32` checksum
accumulation, `i16` → `usize` sign extension).  Rust `Result` values
become `Except M100Error`; a Rust panic (out-of-bounds slice) is the
distinguished error `M100Error.panicked`, kept separate from the
errors the code actually returns.
-/

/-- Command opcodes from `protocol.rs` (`enum Command`). -/
inductive Command where
  | GetVersion
  | Idle
  | Query
  | ReadData
  | SetHfss
  | WriteData
deriving DecidableEq

/-- Numeric opcode of each command (the `#[repr(u8)]` discriminants). -/
def Command.code : Command → Nat
  | .GetVersion => 0x03
  | .Idle => 0x04
  | .Query => 0x22
  | .ReadData => 0x39
  | .SetHfss => 0xAD
  | .WriteData => 0x49

/-- Memory banks from `m100.rs` (`enum MemoryBank`). -/
inductive MemoryBank where
  | Reserved
  | Epc
  | Tid
  | User
deriving DecidableEq

/-- Numeric code of each bank (the `#[repr(u8)]` discriminants). -/
def MemoryBank.code : MemoryBank → Nat
  | .Reserved => 0x00
  | .Epc => 0x01
  | .Tid => 0x02
  | .User => 0x03

/-- Errors of the driver.  Constructors mirror the `anyhow!` error sites of
`m100.rs` plus two conditions that are not returned errors in Rust:
`panicked` stands for a Rust panic (out-of-bounds slice index), and
`ioFailure` for a failed `read_exact` (short read / timeout reported by the
serial transport). -/
inductive M100Error where
  | validation (dataLength : Nat)
  | ioFailure
  | panicked
  | invalidTail (tail : Nat)
  | failRead
  | memOverrun
  | reservedBank
  | connection (b : Nat)
  | prepare (b : Nat)
deriving DecidableEq

/-- Big-endian 16-bit encoding as performed by `write_u16::<BE>(x as u16)`:
the `as u16` cast truncates to the low 16 bits, then the two bytes are
emitted high first. -/
def be16 (n : Nat) : List Nat :=
  [n % 65536 / 256, n % 256]

/-- Wrapping `u32` sum of a list of byte values: `make_frame` accumulates
`packet.iter().skip(1).map(|b| *b as u32).sum()` in a `u32`. -/
def u32sum (bs : List Nat) : Nat :=
  bs.foldl (fun a b => (a + b) % 4294967296) 0

/-- The frame bytes `make_frame` (`protocol.rs:75-92`) assembles:
`[0xBB, 0x00, cmd] ++ LEN(BE16) ++ payload ++ [checksum & 0xFF, 0x7E]`,
where the checksum is the wrapping `u32` sum of every byte after the head. -/
def frameBytes (cmd : Command) (payload : List Nat) : List Nat :=
  let packet := [0xBB, 0x00, cmd.code] ++ be16 payload.length ++ payload
  let checksum := u32sum (packet.drop 1) &&& 0xFF
  packet ++ [checksum, 0x7E]

/-- `make_frame` from `protocol.rs`.  Its only fallible operations are
`write` / `write_u8` / `write_u16` into a `Vec`, which never fail, so the
embedding always returns `Except.ok`; the `payload.len() as u16` cast
truncates silently (see `be16`). -/
def make_frame (cmd : Command) (payload : List Nat) : Except M100Error (List Nat) :=
  .ok (frameBytes cmd payload)

lemma u32sum_foldl_mod (bs : List Nat) :
    ∀ a, List.foldl (fun x y => (x + y) % 4294967296) a bs % 4294967296
      = (a + bs.sum) % 4294967296 := by
  induction bs with
  | nil => intro a; simp
  | cons c cs ih =>
    intro a
    simp only [List.foldl_cons, List.sum_cons]
    rw [ih ((a + c) % 4294967296)]
    rw [Nat.mod_add_mod]
    ring_nf

lemma u32sum_foldl_lt (bs : List Nat) :
    ∀ a, a < 4294967296 →
      List.foldl (fun x y => (x + y) % 4294967296) a bs < 4294967296 := by
  induction bs with
  | nil => intro a ha; simpa using ha
  | cons c cs ih =>
    intro a _
    exact ih ((a + c) % 4294967296) (Nat.mod_lt _ (by norm_num))

/-- The low byte of the wrapping `u32` sum is the plain sum mod 256. -/
lemma u32sum_and_255 (bs : List Nat) : u32sum bs &&& 0xFF = bs.sum % 256 := by
  have h1 : u32sum bs &&& 0xFF = u32sum bs % 256 := Nat.and_pow_two_sub_one_eq_mod _ 8
  have h2 : u32sum bs % 4294967296 = bs.sum % 4294967296 := by
    have := u32sum_foldl_mod bs 0
    simpa [u32sum] using this
  have h3 : u32sum bs % 4294967296 = u32sum bs :=
    Nat.mod_eq_of_lt (u32sum_foldl_lt bs 0 (by norm_num))
  rw [h1, ← h3, h2, Nat.mod_mod_of_dvd _ (by norm_num)]

/-- C1: for every command opcode and payload whose length fits in 16 bits,
`make_frame` returns `[0xBB, 0x00, cmd, LEN_HI, LEN_LO, payload..., checksum,
0x7E]` with LEN the big-endian 16-bit payload length and checksum the low
byte of the sum of all bytes from the TYPE byte through the end of the
payload; in particular `make_frame Query [0x00, 0x00]` is exactly
`BB 00 22 00 02 00 00 24 7E`. -/
theorem c1_make_frame_layout (cmd : Command) (payload : List Nat)
    (hlen : payload.length ≤ 65535) :
    make_frame cmd payload =
      .ok ([0xBB, 0x00, cmd.code, payload.length / 256, payload.length % 256]
        ++ payload
        ++ [(0x00 + cmd.code + payload.length / 256 + payload.length % 256
              + payload.sum) % 256, 0x7E])
    ∧ make_frame .Query [0x00, 0x00]
        = .ok [0xBB, 0x00, 0x22, 0x00, 0x02, 0x00, 0x00, 0x24, 0x7E] := by
  constructor
  · have hmod : payload.length % 65536 = payload.length :=
      Nat.mod_eq_of_lt (by omega)
    have hlo : payload.length % 65536 % 256 = payload.length % 256 := by
      rw [hmod]
    simp only [make_frame, frameBytes, be16, hmod, hlo]
    rw [u32sum_and_255]
    simp [List.sum_append, List.sum_cons]
    ring_nf
  · rfl

/-- C1 witness: the theorem applied at the concrete `Query` example. -/
theorem c1_make_frame_layout_witness :
    make_frame .Query [0x00, 0x00]
      = .ok [0xBB, 0x00, 0x22, 0x00, 0x02, 0x00, 0x00, 0x24, 0x7E] :=
  (c1_make_frame_layout .Query [0x00, 0x00] (by decide)).2

/-- C5 counterexample: at the explicit payload `List.replicate 65536 0`,
whose length 65536 does not fit in 16 bits, `make_frame` still returns
`Except.ok` (the `payload.len() as u16` cast truncates silently), so the
claim that it returns an error on 16-bit overflow is false. -/
theorem c5_counterexample :
    make_frame Command.Query (List.replicate 65536 0)
      = Except.ok (frameBytes Command.Query (List.replicate 65536 0))
    ∧ (List.replicate 65536 (0 : Nat)).length = 65536 :=
  ⟨rfl, by rw [List.length_replicate]⟩

/-- C5 amended: `make_frame` never fails — for every payload it returns
`Except.ok`; the LEN field is the payload length modulo 2^16 (lengths not
fitting in 16 bits are silently truncated rather than rejected), the whole
payload is still appended, and for payloads of length at most 65535 it
produces exactly the frame of §3 (see the C1 theorem). -/
theorem c5_make_frame_total (cmd : Command) (payload : List Nat) :
    make_frame cmd payload = .ok (frameBytes cmd payload)
    ∧ (frameBytes cmd payload).length = payload.length + 7
    ∧ (frameBytes cmd payload).take 5
        = [0xBB, 0x00, cmd.code, payload.length % 65536 / 256,
           payload.length % 256] := by
  refine ⟨rfl, ?_, ?_⟩
  · simp [frameBytes, be16]
  · simp [frameBytes, be16, List.take_append]

/-- The PC word of `write_epc`: `((data.len() as u16) << 10) & 0xF800`,
with the `as u16` truncation and the `u16` shift wraparound explicit. -/
def pcWord (n : Nat) : Nat :=
  ((n % 65536) * 1024) % 65536 &&& 0xF800

/-- `write_epc` from `protocol.rs:59-73`: payload is password, the Epc bank
byte, the two magic bytes `0x00` `0x01`, the big-endian 16-bit data length,
the big-endian PC word, then the data, framed under `Command::WriteData`. -/
def write_epc (password data : List Nat) : Except M100Error (List Nat) :=
  make_frame .WriteData
    (password ++ [MemoryBank.Epc.code] ++ [0x00] ++ [0x01]
      ++ be16 data.length ++ be16 (pcWord data.length) ++ data)

/-- The WriteEpc payload as the specification words it (§4.2): password ‖
Epc byte ‖ 0x00 ‖ 0x01 ‖ len(data) as big-endian 16 bits ‖ PC word
`(len(data) << 10) & 0xF800` as big-endian 16 bits ‖ data. -/
def write_epc_payload_spec (password data : List Nat) : List Nat :=
  password ++ [0x01, 0x00, 0x01]
    ++ [data.length / 256, data.length % 256]
    ++ [((data.length <<< 10) &&& 0xF800) / 256,
        ((data.length <<< 10) &&& 0xF800) % 256]
    ++ data

lemma pcWord_eq (n : Nat) (h : n ≤ 65535) :
    pcWord n = (n <<< 10) &&& 0xF800 := by
  have hmod : n % 65536 = n := Nat.mod_eq_of_lt (by omega)
  have hshift : n <<< 10 = n * 1024 := by
    simp [Nat.shiftLeft_eq]
  rw [pcWord, hmod, hshift]
  have h16 : (n * 1024) % 65536 = (n * 1024) &&& 65535 :=
    (Nat.and_pow_two_sub_one_eq_mod (n * 1024) 16).symm
  rw [h16, Nat.and_assoc]
  congr 1

/-- C7: for every password and data (of 16-bit-representable length),
`write_epc` builds a frame whose payload is exactly the concatenation the
spec describes: password, the Epc bank byte 0x01, magic bytes 0x00 and
0x01, the big-endian 16-bit length of data, the big-endian PC word
`(len(data) << 10) & 0xF800`, then the data bytes. -/
theorem c7_write_epc_payload (password data : List Nat)
    (hlen : data.length ≤ 65535) :
    write_epc password data
      = make_frame .WriteData (write_epc_payload_spec password data) := by
  have hmod : data.length % 65536 = data.length := Nat.mod_eq_of_lt (by omega)
  have hpc : pcWord data.length = (data.length <<< 10) &&& 0xF800 :=
    pcWord_eq data.length hlen
  have hpclt : (data.length <<< 10) &&& 0xF800 < 65536 := by
    have : (data.length <<< 10) &&& 0xF800 ≤ 0xF800 := Nat.and_le_right
    omega
  have hpcmod : ((data.length <<< 10) &&& 0xF800) % 65536
      = (data.length <<< 10) &&& 0xF800 := Nat.mod_eq_of_lt hpclt
  have hpcmod256 : ((data.length <<< 10) &&& 0xF800) % 65536 % 256
      = ((data.length <<< 10) &&& 0xF800) % 256 := by rw [hpcmod]
  simp only [write_epc, write_epc_payload_spec, be16, hmod, hpc, hpcmod,
    MemoryBank.code]
  congr 1
  simp

/-- C7 witness: the theorem applied at a concrete password and data. -/
theorem c7_write_epc_payload_witness :
    write_epc [0x30, 0x30, 0x30, 0x30, 0x30, 0x30, 0x30, 0x30] [0xAB, 0xCD]
      = make_frame .WriteData (write_epc_payload_spec
          [0x30, 0x30, 0x30, 0x30, 0x30, 0x30, 0x30, 0x30] [0xAB, 0xCD]) :=
  c7_write_epc_payload _ _ (by decide)

/-- The payload-length value `receive_response` slices with: the two header
bytes at indices 3 and 4 are parsed as a big-endian **signed** 16-bit
integer (`i16::from_be_bytes`) and then cast to `usize` (`length as usize`),
which sign-extends negative values to 64 bits. -/
def sliceLen (b3 b4 : Nat) : Nat :=
  let lenRaw := 256 * b3 + b4
  if lenRaw < 32768 then lenRaw
  else 18446744073709551616 - 65536 + lenRaw

/-- `receive_response` from `m100.rs:253-271`: reads 5 header bytes into the
fixed 1024-byte `read_buf`, then `length` body bytes into
`read_buf[5..5+length]`, then 2 trailer bytes into
`read_buf[5+length..7+length]`, rejects a tail byte ≠ 0x7E, and returns the
view `read_buf[5..length+5]`.  The input stream is a byte list; a
`read_exact` that cannot be satisfied is `ioFailure`, and an out-of-bounds
slice of the 1024-byte buffer (taken before the corresponding read) is the
Rust panic, `panicked`. -/
def receive_response (input : List Nat) : Except M100Error (List Nat) :=
  if input.length < 5 then .error .ioFailure
  else
    let L := sliceLen (input.getD 3 0) (input.getD 4 0)
    if 1024 < 5 + L then .error .panicked
    else if input.length < 5 + L then .error .ioFailure
    else if 1024 < 7 + L then .error .panicked
    else if input.length < 7 + L then .error .ioFailure
    else if input.getD (L + 6) 0 ≠ 0x7E then
      .error (.invalidTail (input.getD (L + 6) 0))
    else .ok ((input.drop 5).take L)

/-- C3: when the stream carries exactly one frame — 5 header bytes whose
length field is `L` (small enough for the fixed buffer), `L` payload bytes
and 2 trailer bytes — `receive_response` fails with a framing error if and
only if the final byte is not 0x7E, and otherwise returns exactly the `L`
payload bytes. -/
theorem c3_receive_response (input : List Nat) (L : Nat)
    (hL : L = 256 * input.getD 3 0 + input.getD 4 0)
    (hsmall : L ≤ 1017)
    (hlen : input.length = 7 + L) :
    receive_response input =
      if input.getD (L + 6) 0 = 0x7E then .ok ((input.drop 5).take L)
      else .error (.invalidTail (input.getD (L + 6) 0)) := by
  have hslice : sliceLen (input.getD 3 0) (input.getD 4 0) = L := by
    simp only [sliceLen]
    rw [if_pos (by omega)]
    omega
  rw [receive_response, if_neg (by omega)]
  simp only [hslice]
  rw [if_neg (by omega), if_neg (by omega), if_neg (by omega),
    if_neg (by omega)]
  by_cases htail : input.getD (L + 6) 0 = 0x7E
  · rw [if_neg (by simpa using htail), if_pos htail]
  · rw [if_pos (by simpa using htail), if_neg htail]

/-- C3 witness: the theorem applied to a concrete well-formed frame with a
one-byte payload `0x55` and valid tail. -/
theorem c3_receive_response_witness :
    receive_response [0xBB, 0x01, 0x22, 0x00, 0x01, 0x55, 0x34, 0x7E]
      = .ok [0x55] := by
  rw [c3_receive_response [0xBB, 0x01, 0x22, 0x00, 0x01, 0x55, 0x34, 0x7E] 1
    (by decide) (by decide) (by decide)]
  rfl

/-- C9: for any received header whose big-endian length field exceeds the
1019 bytes that fit before the 1024-byte `read_buf` runs out (in particular
every value above 1017 past the trailer, and every value with the sign bit
set), the slice `read_buf[5..5+length]` (or the trailer slice) is out of
bounds and `receive_response` panics instead of returning an error. -/
theorem c9_receive_response_panic (b0 b1 b2 b3 b4 : Nat) (rest : List Nat)
    (hbig : 1019 < 256 * b3 + b4) :
    receive_response (b0 :: b1 :: b2 :: b3 :: b4 :: rest)
      = .error .panicked := by
  rw [receive_response, if_neg (by simp)]
  have hd3 : (b0 :: b1 :: b2 :: b3 :: b4 :: rest).getD 3 0 = b3 := rfl
  have hd4 : (b0 :: b1 :: b2 :: b3 :: b4 :: rest).getD 4 0 = b4 := rfl
  simp only [hd3, hd4]
  have hL : 1019 < sliceLen b3 b4 := by
    simp only [sliceLen]
    split <;> omega
  rw [if_pos (by omega)]

/-- C9 witness: a concrete header advertising a 1024-byte payload makes
`receive_response` panic. -/
theorem c9_receive_response_panic_witness :
    receive_response [0xBB, 0x01, 0x22, 0x04, 0x00] = .error .panicked :=
  c9_receive_response_panic 0xBB 0x01 0x22 0x04 0x00 [] (by decide)

/-- One uppercase hexadecimal digit (0-9, A-F). -/
def hexDigit (n : Nat) : Char :=
  if n < 10 then Char.ofNat (48 + n) else Char.ofNat (55 + n)

/-- Two-character uppercase hex rendering of one byte. -/
def hexByte (b : Nat) : List Char :=
  [hexDigit (b / 16 % 16), hexDigit (b % 16)]

/-- Uppercase hex string of a byte sequence: the net effect of
`hex::encode(..).to_uppercase()` in `query`. -/
def hexUpper (bs : List Nat) : String :=
  String.mk (bs.map hexByte).flatten

/-- `TagInfo` from `m100.rs`. -/
structure TagInfo where
  epc : String
  rssi : Nat
deriving DecidableEq

/-- The response-payload processing of `query` (`m100.rs:108-114`): a
payload of length ≤ 1 yields `none`; otherwise `rssi` is byte 0 and `epc`
is the uppercase hex of the slice `res[3..res.len()-2]`.  That slice
expression is an invalid range (start > end) whenever `2 ≤ len < 5`, a
Rust panic, modelled as `panicked`. -/
def query_process (res : List Nat) : Except M100Error (Option TagInfo) :=
  if res.length ≤ 1 then .ok none
  else if res.length < 5 then .error .panicked
  else .ok (some ⟨hexUpper ((res.drop 3).take (res.length - 5)), res.getD 0 0⟩)

/-- `query` from `m100.rs:103-115`: sends the Query frame, then processes
the decoded response payload. -/
def query (input : List Nat) : Except M100Error (Option TagInfo) :=
  match receive_response input with
  | .error e => .error e
  | .ok res => query_process res

/-- C10: `query` returns `Ok(None)` for every response payload of length at
most 1; for every payload of length 2, 3 or 4 the slice `res[3..len-2]` is
an invalid range and the code panics instead of returning an error or
`None`; and for every payload of length at least 5 it returns `TagInfo`
with `rssi` = byte 0 and `epc` = the uppercase hex encoding of bytes 3
through `len - 3`. -/
theorem c10_query_payload (res : List Nat) :
    (res.length ≤ 1 → query_process res = .ok none)
    ∧ (2 ≤ res.length → res.length ≤ 4 → query_process res = .error .panicked)
    ∧ (5 ≤ res.length → query_process res
        = .ok (some ⟨hexUpper ((res.drop 3).take (res.length - 5)),
                     res.getD 0 0⟩)) := by
  refine ⟨?_, ?_, ?_⟩
  · intro h
    rw [query_process, if_pos h]
  · intro h2 h4
    rw [query_process, if_neg (by omega), if_pos (by omega)]
  · intro h5
    rw [query_process, if_neg (by omega), if_neg (by omega)]

/-- C10 witness: the three cases at concrete payloads — an empty payload, a
length-2 payload (panic), and a length-5 payload whose EPC slice is empty. -/
theorem c10_query_payload_witness :
    query_process [] = .ok none
    ∧ query_process [0xC0, 0x01] = .error .panicked
    ∧ query_process [0xC0, 0x01, 0x02, 0x03, 0x04]
        = .ok (some ⟨"", 0xC0⟩) := by
  refine ⟨(c10_query_payload []).1 (by decide),
    (c10_query_payload [0xC0, 0x01]).2.1 (by decide) (by decide), ?_⟩
  rw [(c10_query_payload [0xC0, 0x01, 0x02, 0x03, 0x04]).2.2 (by decide)]
  rfl

/-- Modelled from the spec: the ReadData frame written by the vendor
routine `m100_sys::readData`, whose source is not part of this repository —
§4.2: payload = password ‖ bank byte ‖ address (BE16) ‖ count (BE16),
framed under `Command::ReadData`; `m100.rs:209-218` passes
`data_length / 2` as the count. -/
def readData_frame (password : List Nat) (bank : MemoryBank)
    (address count : Nat) : List Nat :=
  frameBytes .ReadData (password ++ [bank.code] ++ be16 address ++ be16 count)

/-- `read_data` from `m100.rs:196-230`, returning the driver result
together with the bytes written to the transport: an odd or zero
`data_length` is rejected before the frame is built (nothing is written);
otherwise the ReadData frame is sent, one response is decoded, and the
1-byte sentinels 0x09 / 0xA3 are translated to typed read failures. -/
def read_data (password : List Nat) (bank : MemoryBank)
    (address data_length : Nat) (input : List Nat) :
    Except M100Error (List Nat) × List Nat :=
  if data_length % 2 ≠ 0 ∨ data_length = 0 then
    (.error (.validation data_length), [])
  else
    let sent := readData_frame password bank address (data_length / 2)
    match receive_response input with
    | .error e => (.error e, sent)
    | .ok res =>
      if res.length = 1 ∧ res.getD 0 0 = 0x09 then (.error .failRead, sent)
      else if res.length = 1 ∧ res.getD 0 0 = 0xA3 then
        (.error .memOverrun, sent)
      else (.ok res, sent)

/-- C4: for every password, bank, address and transport stream, a
`data_length` of 0 or an odd `data_length` makes `read_data` return the
validation error with no byte written to the transport; for every positive
even `data_length` the validation check passes and the ReadData frame is
built and written. -/
theorem c4_read_data_validation (password : List Nat) (bank : MemoryBank)
    (address data_length : Nat) (input : List Nat) :
    (data_length = 0 ∨ data_length % 2 = 1 →
      read_data password bank address data_length input
        = (.error (.validation data_length), []))
    ∧ (data_length ≠ 0 → data_length % 2 = 0 →
      (read_data password bank address data_length input).2
        = readData_frame password bank address (data_length / 2)) := by
  constructor
  · intro h
    rw [read_data, if_pos (by omega)]
  · intro h0 h2
    rw [read_data, if_neg (by omega)]
    cases receive_response input with
    | error e => rfl
    | ok res =>
      by_cases h9 : res.length = 1 ∧ res.getD 0 0 = 0x09
      · simp only [if_pos h9]
      · by_cases hA3 : res.length = 1 ∧ res.getD 0 0 = 0xA3
        · simp only [if_neg h9, if_pos hA3]
        · simp only [if_neg h9, if_neg hA3]

/-- C4 witness: at concrete inputs, an odd length (3) is rejected with
nothing written, and a positive even length (2) passes validation and
writes the ReadData frame. -/
theorem c4_read_data_validation_witness :
    read_data [0x30, 0x30, 0x30, 0x30, 0x30, 0x30, 0x30, 0x30]
        .Tid 0 3 [] = (.error (.validation 3), [])
    ∧ (read_data [0x30, 0x30, 0x30, 0x30, 0x30, 0x30, 0x30, 0x30]
        .Tid 0 2 []).2
      = readData_frame [0x30, 0x30, 0x30, 0x30, 0x30, 0x30, 0x30, 0x30]
          .Tid 0 1 :=
  ⟨(c4_read_data_validation _ .Tid 0 3 []).1 (Or.inr (by decide)),
   (c4_read_data_validation _ .Tid 0 2 []).2 (by decide) (by decide)⟩

/-- One `self.read_data` call served by a simulated bank of known finite
length (the configuration of the spec's §8 chunked-read property): the
validation gate is that of `read_data` (`m100.rs:203-208`), a read whose
range lies inside the bank returns those bytes, and a read past the end is
the device-reported memory-overrun that `read_data` turns into a typed
error. -/
def bank_read (bank : List Nat) (address len : Nat) :
    Except M100Error (List Nat) :=
  if len % 2 ≠ 0 ∨ len = 0 then .error (.validation len)
  else if address + len ≤ bank.length then .ok ((bank.drop address).take len)
  else .error .memOverrun

/-- The `loop` of `read_chunked_data` (`m100.rs:141-153`) with
`self.read_data` served by the simulated bank: each successful chunk is
appended to the accumulator and the address advances by `chunk_size`; the
first failing read returns the accumulator as `Ok`. -/
def read_chunked_loop (bank : List Nat) (chunk_size address : Nat)
    (data : List Nat) : Except M100Error (List Nat) :=
  match h : bank_read bank address chunk_size with
  | .ok chunk =>
    read_chunked_loop bank chunk_size (address + chunk_size) (data ++ chunk)
  | .error _ => .ok data
termination_by bank.length + 1 - address
decreasing_by
  simp only [bank_read] at h
  split at h
  · simp at h
  · split at h
    · rename_i hvalid hrange
      push_neg at hvalid
      omega
    · simp at h

/-- `read_chunked_data` from `m100.rs:126-154` over the simulated bank:
when `start_address != 0` it first reads `[0, start_address)` — a failure
of that read is propagated through `?` — then runs the chunk loop from
`start_address` with the accumulated bytes. -/
def read_chunked_data (bank : List Nat) (start_address chunk_size : Nat) :
    Except M100Error (List Nat) :=
  if start_address ≠ 0 then
    match bank_read bank 0 start_address with
    | .error e => .error e
    | .ok start_data => read_chunked_loop bank chunk_size start_address start_data
  else read_chunked_loop bank chunk_size start_address []

lemma read_chunked_loop_ok (bank : List Nat) (chunk address : Nat)
    (data chunkBytes : List Nat)
    (h : bank_read bank address chunk = .ok chunkBytes) :
    read_chunked_loop bank chunk address data
      = read_chunked_loop bank chunk (address + chunk) (data ++ chunkBytes) := by
  rw [read_chunked_loop]
  split
  · rename_i c hc
    rw [h] at hc
    cases hc
    rfl
  · rename_i e he
    rw [h] at he
    cases he

lemma read_chunked_loop_err (bank : List Nat) (chunk address : Nat)
    (data : List Nat) (e : M100Error)
    (h : bank_read bank address chunk = .error e) :
    read_chunked_loop bank chunk address data = .ok data := by
  rw [read_chunked_loop]
  split
  · rename_i c hc
    rw [h] at hc
    cases hc
  · rfl

lemma read_chunked_loop_take (bank : List Nat) (chunk : Nat)
    (hc2 : chunk % 2 = 0) (hc0 : chunk ≠ 0) :
    ∀ n address, bank.length - address ≤ n → address ≤ bank.length →
      read_chunked_loop bank chunk address (bank.take address)
        = .ok (bank.take (address + chunk * ((bank.length - address) / chunk))) := by
  intro n
  induction n with
  | zero =>
    intro address hn ha
    have hfail : bank_read bank address chunk = .error .memOverrun := by
      simp only [bank_read]
      rw [if_neg (by omega), if_neg (by omega)]
    rw [read_chunked_loop_err bank chunk address _ _ hfail]
    have hz : (bank.length - address) / chunk = 0 := by
      have : bank.length - address = 0 := by omega
      rw [this]
      exact Nat.zero_div chunk
    rw [hz]
    simp
  | succ m ih =>
    intro address hn ha
    by_cases hrange : address + chunk ≤ bank.length
    · have hok : bank_read bank address chunk
          = .ok ((bank.drop address).take chunk) := by
        simp only [bank_read]
        rw [if_neg (by omega), if_pos hrange]
      rw [read_chunked_loop_ok bank chunk address _ _ hok]
      rw [← List.take_add]
      rw [ih (address + chunk) (by omega) (by omega)]
      congr 2
      have hdiv : (bank.length - address) / chunk
          = (bank.length - address - chunk) / chunk + 1 :=
        Nat.div_eq_sub_div (by omega) (by omega)
      have hsub : bank.length - (address + chunk)
          = bank.length - address - chunk := by omega
      rw [hsub, hdiv]
      ring
    · have hfail : bank_read bank address chunk = .error .memOverrun := by
        simp only [bank_read]
        rw [if_neg (by omega), if_neg hrange]
      rw [read_chunked_loop_err bank chunk address _ _ hfail]
      have hz : (bank.length - address) / chunk = 0 :=
        Nat.div_eq_of_lt (by omega)
      rw [hz]
      simp

lemma read_chunked_data_take (bank : List Nat) (start chunk : Nat)
    (hs2 : start % 2 = 0) (hsl : start ≤ bank.length)
    (hc2 : chunk % 2 = 0) (hc0 : chunk ≠ 0) :
    read_chunked_data bank start chunk
      = .ok (bank.take (start + chunk * ((bank.length - start) / chunk))) := by
  rw [read_chunked_data]
  by_cases hs0 : start = 0
  · subst hs0
    rw [if_neg (by simp)]
    have := read_chunked_loop_take bank chunk hc2 hc0 bank.length 0
      (by omega) (by omega)
    simpa using this
  · have hpre : bank_read bank 0 start = .ok ((bank.drop 0).take start) := by
      simp only [bank_read]
      rw [if_neg (by omega), if_pos (by omega)]
    rw [if_pos hs0, hpre]
    simp only [List.drop_zero]
    exact read_chunked_loop_take bank chunk hc2 hc0 bank.length start
      (by omega) hsl

/-- C2: against a simulated bank of known finite length, the chunked read
first captures the prefix `[0, start_address)` when `start_address` is
nonzero, then appends fixed-size chunks advancing by `chunk_size`; the
first failing chunk read ends the loop and the bytes accumulated so far —
exactly the bank prefix covered by the prior reads — are returned as `Ok`,
never as an error. -/
theorem c2_read_chunked_stop_on_error (bank : List Nat) (start chunk : Nat)
    (hs2 : start % 2 = 0) (hsl : start ≤ bank.length)
    (hc2 : chunk % 2 = 0) (hc0 : chunk ≠ 0) :
    read_chunked_data bank start chunk
      = .ok (bank.take (start + chunk * ((bank.length - start) / chunk))) :=
  read_chunked_data_take bank start chunk hs2 hsl hc2 hc0

/-- C2 witness: a 5-byte bank read from address 2 in 2-byte chunks returns
the first 4 bytes as a success (the chunk at address 4 fails and
terminates the loop). -/
theorem c2_read_chunked_stop_on_error_witness :
    read_chunked_data [1, 2, 3, 4, 5] 2 2 = .ok [1, 2, 3, 4] := by
  rw [c2_read_chunked_stop_on_error [1, 2, 3, 4, 5] 2 2
    (by decide) (by decide) (by decide) (by decide)]
  rfl

/-- `read_all_data` from `m100.rs:117-124` over the simulated bank. -/
def read_all_data (bank : MemoryBank) (simBank : List Nat) :
    Except M100Error (List Nat) :=
  match bank with
  | .Reserved => .error .reservedBank
  | .Epc => read_chunked_data simBank 12 2
  | .Tid => read_chunked_data simBank 4 2
  | .User => read_chunked_data simBank 0 512

/-- C6: `read_all_data` dispatches by bank — Reserved fails immediately
with an error for every bank content (no read is issued); Epc chunk-reads
from address 12 in 2-byte chunks; Tid chunk-reads from address 4 in 2-byte
chunks (lineage variant (b), not a single fixed 32-byte read); User
chunk-reads from address 0 in 512-byte chunks. -/
theorem c6_read_all_data_dispatch (b : List Nat) :
    read_all_data .Reserved b = .error .reservedBank
    ∧ read_all_data .Epc b = read_chunked_data b 12 2
    ∧ read_all_data .Tid b = read_chunked_data b 4 2
    ∧ read_all_data .User b = read_chunked_data b 0 512
    ∧ (12 ≤ b.length →
        read_all_data .Epc b = .ok (b.take (12 + 2 * ((b.length - 12) / 2))))
    ∧ (4 ≤ b.length →
        read_all_data .Tid b = .ok (b.take (4 + 2 * ((b.length - 4) / 2))))
    ∧ read_all_data .User b = .ok (b.take (512 * (b.length / 512))) := by
  refine ⟨rfl, rfl, rfl, rfl, ?_, ?_, ?_⟩
  · intro h
    exact read_chunked_data_take b 12 2 (by decide) h (by decide) (by decide)
  · intro h
    exact read_chunked_data_take b 4 2 (by decide) h (by decide) (by decide)
  · have := read_chunked_data_take b 0 512 (by decide) (by omega)
      (by decide) (by decide)
    simpa using this

/-- C6 witness: the dispatch at a concrete 16-byte bank — Reserved errors,
Epc and Tid return the whole bank via 2-byte chunking, User returns the
empty prefix (the first 512-byte chunk already fails). -/
theorem c6_read_all_data_dispatch_witness :
    read_all_data .Reserved (List.replicate 16 (7 : Nat))
        = .error .reservedBank
    ∧ read_all_data .Epc (List.replicate 16 (7 : Nat))
        = .ok (List.replicate 16 7)
    ∧ read_all_data .Tid (List.replicate 16 (7 : Nat))
        = .ok (List.replicate 16 7)
    ∧ read_all_data .User (List.replicate 16 (7 : Nat)) = .ok [] := by
  have h := c6_read_all_data_dispatch (List.replicate 16 (7 : Nat))
  refine ⟨h.1, ?_, ?_, ?_⟩
  · rw [h.2.2.2.2.1 (by decide)]
    rfl
  · rw [h.2.2.2.2.2.1 (by decide)]
    rfl
  · rw [h.2.2.2.2.2.2]
    rfl

/-- Observable transport actions of `upload_firmware`, in issue order. -/
inductive Event where
  | setBaud (rate : Nat)
  | write (bytes : List Nat)
  | flush
  | sleepMs (ms : Nat)
deriving DecidableEq

/-- Modelled from the spec: the Idle frame written by the vendor routine
`m100_sys::idle`, whose source is not part of this repository — §4.2: the
Idle command with payload `[0x00, 0x01, 0x00]`. -/
def idleFrame : List Nat :=
  frameBytes .Idle [0x00, 0x01, 0x00]

/-- `upload_firmware` from `m100.rs:34-77`, returning the driver result
together with the ordered trace of transport actions.  `input` is the byte
stream the device replies with; each `read_exact` consumes from it, and a
stream that runs dry is the transport timeout, `ioFailure`.  Stage 5
(`disable_sleep`) sends the Idle frame and decodes one response. -/
def upload_firmware (input firmware : List Nat) :
    Except M100Error Unit × List Event :=
  let ev1 : List Event := [.setBaud 9600, .write [0xFE], .flush]
  match input with
  | [] => (.error .ioFailure, ev1)
  | b1 :: rest1 =>
    if b1 ≠ 0xFF then (.error (.connection b1), ev1)
    else
      let ev2 := ev1 ++ [.write [0xB5], .flush, .sleepMs 50, .setBaud 115200,
        .write [0xFF, 0xDB], .flush]
      match rest1 with
      | [] => (.error .ioFailure, ev2)
      | b2 :: rest2 =>
        if b2 ≠ 0xBF then (.error (.prepare b2), ev2)
        else
          let ev3 := ev2 ++ [.write [0xFD], .flush, .write firmware, .flush,
            .write idleFrame, .flush]
          match receive_response rest2 with
          | .error e => (.error e, ev3)
          | .ok _ => (.ok (), ev3)

/-- C8: if the single-byte reply to the Probe-stage alive-check byte 0xFE
is any value other than 0xFF, `upload_firmware` aborts with the fatal
connection error and its whole transport trace is exactly the Probe
stage — set 9600 baud, write 0xFE, flush — so no baud-rate change to
115200 and no further write ever happens. -/
theorem c8_probe_abort (b : Nat) (rest firmware : List Nat)
    (hb : b ≠ 0xFF) :
    upload_firmware (b :: rest) firmware
      = (.error (.connection b), [.setBaud 9600, .write [0xFE], .flush]) := by
  rw [upload_firmware]
  simp only [if_pos hb]

/-- C8 witness: a probe reply of 0x00 aborts with the Probe-stage trace
only. -/
theorem c8_probe_abort_witness :
    upload_firmware [0x00] [0xDE, 0xAD]
      = (.error (.connection 0x00),
         [.setBaud 9600, .write [0xFE], .flush]) :=
  c8_probe_abort 0x00 [] [0xDE, 0xAD] (by decide)
